import Mathlib

/-!
# Verification of the AircraftHealthML anomaly-detection pipeline

Shallow embedding of the core of
`monitoring/ml_models/Models/anomaly_detection.py` and
`monitoring/ml_models/Models/evaluation.py`.

Modelling conventions:
* floating-point numbers are modelled by rationals (`ℚ`); the special IEEE
  values NaN and ±inf that pandas/numpy track explicitly are modelled by the
  dedicated constructors of `PyVal`;
* a square root appearing in a strict comparison `x > m + sqrt v` (with
  `v ≥ 0`) is decided rationally through the equivalent condition
  `0 < x - m ∧ v < (x - m)^2`; the equivalence over `ℝ` is proved in
  `exceedsThr_iff_real`;
* a Python function that can raise returns `Except String _` (or a pair of
  the mutated state and an `Option String`, when the partial mutation that a
  raise leaves behind is itself under study);
* opaque learned components (the transformer's weights, the isolation
  forest) are type parameters: the theorems quantify over them, so nothing
  is assumed about their values.
-/

/-- A numeric cell of a pandas DataFrame / numpy array: a float, which may
be NaN or ±infinity. -/
inductive PyVal where
  | nan : PyVal
  | inf : PyVal
  | ninf : PyVal
  | num : ℚ → PyVal
deriving DecidableEq

/-- The finite payload of a `PyVal`, if any. -/
def PyVal.asNum : PyVal → Option ℚ
  | .num q => some q
  | _ => none

/-- `np.isinf` on a single value. -/
def PyVal.isInf : PyVal → Bool
  | .inf => true
  | .ninf => true
  | _ => false

/-- numpy semantics of `v > 1e6` on a single value: NaN compares false,
`+inf` compares true. -/
def PyVal.gt1e6 : PyVal → Bool
  | .nan => false
  | .inf => true
  | .ninf => false
  | .num q => decide ((1000000 : ℚ) < q)

/-- A DataFrame restricted to its numeric columns: a list of columns, each a
list of cell values. -/
abbrev DataCols := List (List PyVal)

/-- `HybridAnomalyDetector.validate_data` (anomaly_detection.py lines
141-149): raises on any NaN, then on any ±inf, then on any value `> 1e6`
(note: the large-value check is one-sided — it does not look at magnitude). -/
def validate_data (cols : DataCols) : Except String Unit :=
  if cols.any (fun c => c.any (· = PyVal.nan)) then
    Except.error "Data contains NaN values. Please preprocess the dataset."
  else if cols.any (fun c => c.any PyVal.isInf) then
    Except.error "Data contains infinity values. Please preprocess the dataset."
  else if cols.any (fun c => c.any PyVal.gt1e6) then
    Except.error "Data contains excessively large values. Please preprocess the dataset."
  else
    Except.ok ()

/-! ## NGAFIDAnomalyDetector.fit (lines 80-104) -/

/-- Insert into a sorted list (ascending). -/
def insertSorted (x : ℚ) : List ℚ → List ℚ
  | [] => [x]
  | y :: ys => if x ≤ y then x :: y :: ys else y :: insertSorted x ys

/-- Ascending sort, used to compute the pandas median. -/
def sortQ (xs : List ℚ) : List ℚ :=
  xs.foldr insertSorted []

/-- pandas `Series.median` over the non-NaN values: middle element of the
sorted values for odd count, mean of the two middles for even count, absent
for an empty list. -/
def medianQ (xs : List ℚ) : Option ℚ :=
  let s := sortQ xs
  let n := s.length
  if n = 0 then none
  else if n % 2 = 1 then s.get? (n / 2)
  else
    match s.get? (n / 2 - 1), s.get? (n / 2) with
    | some a, some b => some ((a + b) / 2)
    | _, _ => none

/-- `numerical_data.replace([np.inf, -np.inf], np.nan)` on one column. -/
def replaceInfWithNaN (col : List PyVal) : List PyVal :=
  col.map fun v =>
    match v with
    | .inf => .nan
    | .ninf => .nan
    | v => v

/-- `numerical_data.fillna(numerical_data.median())` on one column. -/
def fillnaMedian (col : List PyVal) : List PyVal :=
  let m := medianQ (col.filterMap PyVal.asNum)
  col.map fun v =>
    match v, m with
    | .nan, some q => .num q
    | v, _ => v

/-- `NGAFIDAnomalyDetector.fit` (lines 80-104).  It performs NO validation:
infinities are replaced by NaN, NaN is filled with each column's median, the
columns are quantile-clipped, scaled and the forest is fitted.  The
quantile-clip, `StandardScaler` and `IsolationForest.fit` steps are total on
all-finite input and raise no data-quality error; `StandardScaler` does
raise on a remaining NaN (which survives the median fill only when a whole
column holds no finite value).  The returned value is the cleaned data as it
stands after the replace/fill steps. -/
def NGAFID_fit (cols : DataCols) : Except String DataCols :=
  let cleaned := cols.map fun c => fillnaMedian (replaceInfWithNaN c)
  if cleaned.any (fun c => c.any (· = PyVal.nan)) then
    Except.error "Input contains NaN"
  else
    Except.ok cleaned

/-- `HybridAnomalyDetector.fit_ngafid` (lines 182-187): validate, then
delegate to `NGAFIDAnomalyDetector.fit`. -/
def fit_ngafid (cols : DataCols) : Except String DataCols :=
  validate_data cols >>= fun _ => NGAFID_fit cols

/-! ## HybridAnomalyDetector.fit_adapt (lines 151-180) -/

/-- The mean of a list of rationals (`0` on the empty list, never reached on
the paths the theorems take). -/
def listMean (xs : List ℚ) : ℚ :=
  xs.sum / xs.length

/-- Population variance (ddof = 0), as stored by `StandardScaler.var_`. -/
def listVarPop (xs : List ℚ) : ℚ :=
  (xs.map fun x => (x - listMean xs) ^ 2).sum / xs.length

/-- `StandardScaler.fit` on numeric columns: records per-column mean and
population variance (the scaler's `mean_` and `var_`; its scale is the
square root of the variance). -/
def scaler_fit (cols : DataCols) : List ℚ × List ℚ :=
  (cols.map fun c => listMean (c.filterMap PyVal.asNum),
   cols.map fun c => listVarPop (c.filterMap PyVal.asNum))

/-- The mutable state of the sequence side of a `HybridAnomalyDetector`:
the `adapt_scaler` (unfitted = `none`, fitted = its recorded mean/variance
vectors) and the transformer's weights, of an arbitrary type `W`. -/
structure AdaptState (W : Type) where
  scaler : Option (List ℚ × List ℚ)
  weights : W
deriving DecidableEq

/-- `HybridAnomalyDetector.fit_adapt` (lines 151-180): validate the data;
on failure the Python exception propagates before `fit_transform` runs, so
the state is returned unchanged together with the error.  On success the
scaler is fitted and the training loop (windowing + gradient descent,
abstracted as the parameter `train` since its float arithmetic is outside
the rational model) updates the weights.  The `Option String` component
models only the data-quality validation outcome; later sizing errors of the
windowing are modelled separately by `dataset_len`. -/
def fit_adapt {W : Type} (train : W → DataCols → W)
    (st : AdaptState W) (cols : DataCols) : AdaptState W × Option String :=
  match validate_data cols with
  | .error e => (st, some e)
  | .ok _ => (⟨some (scaler_fit cols), train st.weights cols⟩, none)

/-! ## ADAPTTimeSeriesDataset (lines 20-31) -/

/-- `ADAPTTimeSeriesDataset.__len__` before Python's `len()` sign check:
`len(self.data) - self.sequence_length + 1` as a (possibly negative)
integer. -/
def dataset_len_raw (N L : ℕ) : ℤ :=
  (N : ℤ) - (L : ℤ) + 1

/-- `len(dataset)`: Python's `len()` raises `ValueError` when `__len__`
returns a negative number, otherwise yields it. -/
def dataset_len (N L : ℕ) : Except String ℕ :=
  if dataset_len_raw N L < 0 then Except.error "len() should return >= 0"
  else Except.ok (dataset_len_raw N L).toNat

/-- `ADAPTTimeSeriesDataset.__getitem__`: `self.data[idx : idx + L]`, a
window of `L` consecutive rows starting at `idx`. -/
def window (data : List (List ℚ)) (L idx : ℕ) : List (List ℚ) :=
  (data.drop idx).take L

/-! ## HybridAnomalyDetector.detect_adapt_anomalies (lines 189-206)

The per-window reconstruction errors come out of the frozen transformer;
the thresholding below (lines 203-206) is a pure function of that error
sequence, and is embedded as such. -/

/-- The trailing window of length `w` ending at index `i` of a series, when
at least `w` observations are available (`pandas.Series.rolling(w)` with the
default `min_periods = w`). -/
def rollingWindows (w : ℕ) (xs : List ℚ) : List (Option (List ℚ)) :=
  (List.range xs.length).map fun i =>
    if w ≤ i + 1 then some ((xs.drop (i + 1 - w)).take w) else none

/-- `pd.Series(xs).rolling(w).mean()`: `none` models the NaN entries at the
head of the series. -/
def rolling_mean (w : ℕ) (xs : List ℚ) : List (Option ℚ) :=
  (rollingWindows w xs).map (Option.map listMean)

/-- Sample variance (ddof = 1), absent for fewer than two observations —
exactly where the pandas sample standard deviation is NaN.  The standard
deviation itself is the (generally irrational) square root of this value;
comparisons against `mean + std` are decided through `exceedsThr`. -/
def sampleVar (xs : List ℚ) : Option ℚ :=
  if xs.length ≤ 1 then none
  else some ((xs.map fun x => (x - listMean xs) ^ 2).sum / ((xs.length : ℚ) - 1))

/-- `rolling_mean.std()` of pandas: the SAMPLE variance of the defined
(non-NaN) entries of the rolling-mean series — one scalar for the whole
series, represented by its variance. -/
def series_std_var (ms : List (Option ℚ)) : Option ℚ :=
  sampleVar (ms.filterMap id)

/-- Pair a rolling-mean entry with the scalar variance: the threshold
entry `mean + sqrt variance`, NaN (`none`) when either part is NaN. -/
def pairWith (v : Option ℚ) (m : Option ℚ) : Option (ℚ × ℚ) :=
  match m, v with
  | some m, some v => some (m, v)
  | _, _ => none

/-- `dynamic_threshold = rolling_mean + rolling_mean.std()` (line 205).
Each defined entry is the pair (rolling mean, variance whose square root is
the added scalar standard deviation); the entry is NaN (`none`) when either
part is. -/
def dynamic_threshold (w : ℕ) (xs : List ℚ) : List (Option (ℚ × ℚ)) :=
  (rolling_mean w xs).map (pairWith (series_std_var (rolling_mean w xs)))

/-- First defined entry of a list of optional values. -/
def firstSome {α : Type} (l : List (Option α)) : Option α :=
  (l.filterMap id).head?

/-- `Series.bfill()`: every NaN entry is replaced by the next defined entry
after it, if any. -/
def bfill {α : Type} : List (Option α) → List (Option α)
  | [] => []
  | x :: rest =>
    (match x with
     | some a => some a
     | none => firstSome rest) :: bfill rest

/-- The numpy comparison `e > m + sqrt v` (`v ≥ 0`), decided rationally;
a NaN threshold (`none`) compares false.  `exceedsThr_iff_real` proves the
real-number equivalence. -/
def exceedsThr (e : ℚ) (t : Option (ℚ × ℚ)) : Bool :=
  match t with
  | none => false
  | some (m, v) => decide (0 < e - m) && decide (v < (e - m) ^ 2)

/-- `HybridAnomalyDetector.detect_adapt_anomalies`, thresholding stage
(lines 203-206): `reconstruction_errors > dynamic_threshold.bfill().values`. -/
def detect_adapt_anomalies (w : ℕ) (errors : List ℚ) : List Bool :=
  (errors.zip (bfill (dynamic_threshold w errors))).map fun p => exceedsThr p.1 p.2

/-- Modelled from the amended reading of the spec sentence: the threshold
is the rolling-window mean of the error history, back-filled at the start,
plus the sample standard deviation OF THE ROLLING-MEAN SERIES — a single
scalar for the whole run, not a rolling standard deviation. -/
def amended_flags (w : ℕ) (xs : List ℚ) : List Bool :=
  (xs.zip (bfill (rolling_mean w xs))).map fun p =>
    exceedsThr p.1 (pairWith (series_std_var (rolling_mean w xs)) p.2)

/-- Modelled from the claim's words (rejected by the code, see the
counterexample): per-window threshold = rolling mean of the errors plus the
ROLLING sample standard deviation of the errors over the same window,
back-filled at the start. -/
def rolling_var (w : ℕ) (xs : List ℚ) : List (Option ℚ) :=
  (rollingWindows w xs).map fun o => o.bind sampleVar

/-- The claim's threshold, paired as (rolling mean, rolling variance). -/
def claim_threshold (w : ℕ) (xs : List ℚ) : List (Option (ℚ × ℚ)) :=
  ((rolling_mean w xs).zip (rolling_var w xs)).map fun p =>
    match p with
    | (some m, some v) => some (m, v)
    | _ => none

/-- The anomaly flags the claim's wording would produce. -/
def claim_flags (w : ℕ) (xs : List ℚ) : List Bool :=
  (xs.zip (bfill (claim_threshold w xs))).map fun p => exceedsThr p.1 p.2

/-! ## Persistence (lines 232-253) -/

/-- The three independent artifacts of a fitted `HybridAnomalyDetector`:
transformer weights `W`, sequence scaler `S`, tabular detector `T`
(isolation forest together with its own scaler). -/
structure HybridModels (W S T : Type) where
  adapt_detector : W
  adapt_scaler : S
  ngafid_detector : T
deriving DecidableEq

/-- A save directory: each artifact file either present or missing. -/
structure ModelDir (W S T : Type) where
  adapt_detector_pth : Option W
  adapt_scaler_joblib : Option S
  ngafid_detector_joblib : Option T
deriving DecidableEq

/-- `HybridAnomalyDetector.save_models` (lines 232-242): writes the three
artifacts.  `torch.save`/`joblib.dump` round-trip their payloads exactly,
so serialization is modelled as the identity. -/
def save_models {W S T : Type} (st : HybridModels W S T) : ModelDir W S T :=
  ⟨some st.adapt_detector, some st.adapt_scaler, some st.ngafid_detector⟩

/-- `HybridAnomalyDetector.load_models` (lines 244-253): loads the weights,
then the scaler, then the tabular detector, in that order, installing each
into the live detector as it goes.  A missing file raises (the error names
that file) and leaves everything already installed in place. -/
def load_models {W S T : Type} (dir : ModelDir W S T) (st : HybridModels W S T) :
    HybridModels W S T × Option String :=
  match dir.adapt_detector_pth with
  | none => (st, some "adapt_detector.pth")
  | some w =>
    let st1 := { st with adapt_detector := w }
    match dir.adapt_scaler_joblib with
    | none => (st1, some "adapt_scaler.joblib")
    | some s =>
      let st2 := { st1 with adapt_scaler := s }
      match dir.ngafid_detector_joblib with
      | none => (st2, some "ngafid_detector.joblib")
      | some t => ({ st2 with ngafid_detector := t }, none)

/-! ## AnomalyEvaluator (evaluation.py) -/

/-- `np.max` over a list (the empty case is dead: numpy raises there and
every theorem below assumes a non-empty input). -/
def np_max : List ℚ → ℚ
  | [] => 0
  | h :: t => t.foldl max h

/-- `np.min` over a list. -/
def np_min : List ℚ → ℚ
  | [] => 0
  | h :: t => t.foldl min h

/-- `AnomalyEvaluator.normalize_scores` (lines 29-34). -/
def normalize_scores (xs : List ℚ) : List ℚ :=
  if np_max xs = np_min xs then List.replicate xs.length 0
  else xs.map fun x => (x - np_min xs) / (np_max xs - np_min xs)

/-- True positives of a binary prediction. -/
def tp_count (y p : List Bool) : ℕ :=
  (y.zip p).countP fun q => q.1 && q.2

/-- False positives of a binary prediction. -/
def fp_count (y p : List Bool) : ℕ :=
  (y.zip p).countP fun q => !q.1 && q.2

/-- False negatives of a binary prediction. -/
def fn_count (y p : List Bool) : ℕ :=
  (y.zip p).countP fun q => q.1 && !q.2

/-- `f1_score(y_true, y_pred)` for binary labels, sklearn conventions:
`2tp / (2tp + fp + fn)`, and `0` when that denominator is zero. -/
def f1_score (y p : List Bool) : ℚ :=
  if 2 * tp_count y p + fp_count y p + fn_count y p = 0 then 0
  else (2 * tp_count y p : ℚ) / ((2 * tp_count y p + fp_count y p + fn_count y p : ℕ) : ℚ)

/-- `np.linspace(0, 1, 100)`: the 100 evenly spaced thresholds `k / 99`. -/
def linspace100 : List ℚ :=
  (List.range 100).map fun (k : ℕ) => (k : ℚ) / 99

/-- The `if method == ... / elif ...` chain in the scan loop of
`find_optimal_threshold` (lines 47-55).  Only the `"f1"` branch is used by
any theorem here; the `"mcc"` and `"balanced"` branches call sklearn
routines whose square-root/NaN float semantics are outside the rational
model, so their value is a parameter — all that matters below is that those
branches DO assign the metric, while an unknown method assigns nothing
(`none`). -/
def metric_branch (mccF balF : List Bool → List Bool → ℚ)
    (method : String) (yTrue yPred : List Bool) : Option ℚ :=
  if method = "f1" then some (f1_score yTrue yPred)
  else if method = "mcc" then some (mccF yTrue yPred)
  else if method = "balanced" then some (balF yTrue yPred)
  else none

/-- The scan loop of `find_optimal_threshold`: `metricAt t` is the metric
the body computes at threshold `t` (`none` models the unbound `metric`
variable for an unrecognized method, which raises at the first scanned
threshold); the accumulator is `(best_metric, best_threshold)` and is
replaced exactly when the new metric is strictly larger. -/
def threshold_scan (metricAt : ℚ → Option ℚ) :
    List ℚ → ℚ × ℚ → Except String (ℚ × ℚ)
  | [], b => Except.ok b
  | t :: ts, b =>
    match metricAt t with
    | none => Except.error "UnboundLocalError: local variable metric referenced before assignment"
    | some m => threshold_scan metricAt ts (if b.1 < m then (m, t) else b)

/-- `AnomalyEvaluator.find_optimal_threshold` (lines 36-61): normalize the
scores, scan the 100 thresholds keeping the strictly-best metric, starting
from `best_metric = 0`, `best_threshold = 0.5`; predictions at threshold
`t` are `normalized score > t`. -/
def find_optimal_threshold (mccF balF : List Bool → List Bool → ℚ)
    (method : String) (yTrue : List Bool) (scores : List ℚ) : Except String ℚ :=
  let ns := normalize_scores scores
  (threshold_scan
      (fun t => metric_branch mccF balF method yTrue (ns.map fun s => decide (t < s)))
      linspace100 ((0 : ℚ), (1 : ℚ) / 2)).map Prod.snd

/-! ## Theorems -/

/-- Claim C2 (confirmed): for a series of `N ≥ L` rows over `D` channels,
the windowing dataset has exactly `N - L + 1` windows, and window `i`
(for `i` in `[0, N-L]`) has `L` rows, each row `j` of it being row `i + j`
of the source series unchanged, of width `D`. -/
theorem dataset_windows_exact (data : List (List ℚ)) (L D : ℕ)
    (hNL : L ≤ data.length) (hD : ∀ r ∈ data, r.length = D) :
    dataset_len data.length L = Except.ok (data.length - L + 1) ∧
    ∀ i, i + L ≤ data.length →
      (window data L i).length = L ∧
      (∀ j, j < L → (window data L i).get? j = data.get? (i + j)) ∧
      (∀ r ∈ window data L i, r.length = D) := by
  refine ⟨?_, fun i hi => ⟨?_, fun j hj => ?_, fun r hr => ?_⟩⟩
  · rw [dataset_len, if_neg (by simp only [dataset_len_raw]; omega)]
    congr 1
    simp only [dataset_len_raw]
    omega
  · simp only [window, List.length_take, List.length_drop]
    omega
  · rw [window, List.get?_take hj, List.get?_drop]
  · exact hD r (List.drop_subset i data (List.take_subset L (data.drop i) hr))

/-- Witness for C2 at a concrete 3 x 1 series with L = 2: three windows,
and window 1's row 0 is row 1 of the source. -/
theorem dataset_windows_exact_witness :
    dataset_len 3 2 = Except.ok 2 ∧
    (window [[1], [2], [3]] 2 1).get? 0 = [[1], [2], [3]].get? 1 := by
  have h := dataset_windows_exact [[1], [2], [3]] 2 1 (by simp)
    (by intro r hr; simp only [List.mem_cons, List.not_mem_nil, or_false] at hr
        rcases hr with h | h | h <;> simp [h])
  exact ⟨h.1, ((h.2 1 (by simp)).2.1 0 (by omega))⟩

/-- Claim C9 counterexample: a series one row short of the window length
(`N = 49`, `L = 50`) raises no error at all — `len()` is `0` and the
windowing silently yields an empty dataset. -/
theorem dataset_len_boundary_counterexample : dataset_len 49 50 = Except.ok 0 := rfl

/-- Claim C9 (corrected): for `N < L`, `len()` raises only when the raw
length `N - L + 1` is negative, i.e. when `N + 1 < L`; at `N = L - 1`
exactly, the dataset is silently empty. -/
theorem dataset_len_short_series_spec (N L : ℕ) (h : N < L) :
    dataset_len N L =
      if N + 1 < L then Except.error "len() should return >= 0" else Except.ok 0 := by
  by_cases h2 : N + 1 < L
  · rw [if_pos h2, dataset_len, if_pos (by simp only [dataset_len_raw]; omega)]
  · rw [if_neg h2, dataset_len, if_neg (by simp only [dataset_len_raw]; omega)]
    congr 1
    simp only [dataset_len_raw]
    omega

/-- Witness for C9 at `N = 48`, `L = 50`: `len()` raises. -/
theorem dataset_len_short_series_witness :
    dataset_len 48 50 =
      if 48 + 1 < 50 then Except.error "len() should return >= 0" else Except.ok 0 :=
  dataset_len_short_series_spec 48 50 (by omega)

/-- Claim C6 (confirmed): saving a fitted detector and loading it into a
fresh instance restores the exact artifacts, so both scoring entry points —
deterministic functions of the restored scaler/weights (eval mode) and of
the restored tabular detector — return identical arrays on every same
input. -/
theorem save_load_roundtrip_scores (W S T In O1 O2 : Type)
    (getAdaptScores : S → W → In → O1) (getNgafidScores : T → In → O2)
    (st fresh : HybridModels W S T) (x : In) :
    (load_models (save_models st) fresh).2 = none ∧
    (load_models (save_models st) fresh).1 = st ∧
    getAdaptScores (load_models (save_models st) fresh).1.adapt_scaler
        (load_models (save_models st) fresh).1.adapt_detector x =
      getAdaptScores st.adapt_scaler st.adapt_detector x ∧
    getNgafidScores (load_models (save_models st) fresh).1.ngafid_detector x =
      getNgafidScores st.ngafid_detector x :=
  ⟨rfl, rfl, rfl, rfl⟩

/-- Claim C7 counterexample: with the weights file present but the scaler
file missing, `load_models` raises naming the scaler artifact, yet the
loaded weights have already been installed — the prior in-memory state
(here `⟨0, 0, 0⟩`) is NOT left intact. -/
theorem load_models_leftover_state_counterexample :
    load_models (⟨some 5, none, none⟩ : ModelDir ℕ ℕ ℕ) ⟨0, 0, 0⟩ =
      (⟨5, 0, 0⟩, some "adapt_scaler.joblib") ∧
    (⟨5, 0, 0⟩ : HybridModels ℕ ℕ ℕ) ≠ ⟨0, 0, 0⟩ :=
  ⟨rfl, by simp⟩

/-- Claim C7 (corrected): whichever artifact is missing, the load fails
with an error naming that artifact, but the artifacts earlier in the fixed
load order (weights, then scaler, then tabular detector) are already
installed into the live detector.  Prior state survives fully intact only
when the first artifact (`adapt_detector.pth`) is the missing one; a
missing scaler leaves the new weights installed; a missing tabular
detector leaves both the new weights and the new scaler installed. -/
theorem load_models_missing_artifact_spec (W S T : Type) (dir : ModelDir W S T)
    (st : HybridModels W S T) :
    (dir.adapt_detector_pth = none →
      load_models dir st = (st, some "adapt_detector.pth")) ∧
    (∀ w, dir.adapt_detector_pth = some w → dir.adapt_scaler_joblib = none →
      load_models dir st =
        ({ st with adapt_detector := w }, some "adapt_scaler.joblib")) ∧
    (∀ w s, dir.adapt_detector_pth = some w → dir.adapt_scaler_joblib = some s →
      dir.ngafid_detector_joblib = none →
      load_models dir st =
        ({ st with adapt_detector := w, adapt_scaler := s },
         some "ngafid_detector.joblib")) := by
  refine ⟨?_, ?_, ?_⟩
  · intro hp
    unfold load_models
    rw [hp]
  · intro w hp hs
    unfold load_models
    rw [hp, hs]
  · intro w s hp hs hn
    unfold load_models
    rw [hp, hs, hn]

/-- Witness for C7 at three concrete directories, one per missing
artifact: the error names the missing file and exactly the artifacts
loaded before the failure are installed. -/
theorem load_models_missing_artifact_witness :
    load_models (⟨none, some 8, some 9⟩ : ModelDir ℕ ℕ ℕ) ⟨1, 2, 3⟩ =
      (⟨1, 2, 3⟩, some "adapt_detector.pth") ∧
    load_models (⟨some 7, none, some 9⟩ : ModelDir ℕ ℕ ℕ) ⟨1, 2, 3⟩ =
      (⟨7, 2, 3⟩, some "adapt_scaler.joblib") ∧
    load_models (⟨some 7, some 8, none⟩ : ModelDir ℕ ℕ ℕ) ⟨1, 2, 3⟩ =
      (⟨7, 8, 3⟩, some "ngafid_detector.joblib") :=
  ⟨(load_models_missing_artifact_spec ℕ ℕ ℕ ⟨none, some 8, some 9⟩ ⟨1, 2, 3⟩).1 rfl,
   (load_models_missing_artifact_spec ℕ ℕ ℕ ⟨some 7, none, some 9⟩ ⟨1, 2, 3⟩).2.1 7 rfl rfl,
   (load_models_missing_artifact_spec ℕ ℕ ℕ ⟨some 7, some 8, none⟩ ⟨1, 2, 3⟩).2.2 7 8 rfl rfl rfl⟩

/-- Claim C4 counterexample: on a column containing an infinity,
`NGAFIDAnomalyDetector.fit` itself raises nothing — it silently coerces the
infinity to NaN and then to the column median (here `2`); the raise the
claim describes actually lives in the wrapper's `validate_data`. -/
theorem ngafid_fit_inf_counterexample :
    NGAFID_fit [[PyVal.num 1, PyVal.inf, PyVal.num 3]] =
      Except.ok [[PyVal.num 1, PyVal.num 2, PyVal.num 3]] ∧
    validate_data [[PyVal.num 1, PyVal.inf, PyVal.num 3]] =
      Except.error "Data contains infinity values. Please preprocess the dataset." := by
  constructor
  · simp +decide [NGAFID_fit, fillnaMedian, replaceInfWithNaN, medianQ, sortQ, insertSorted,
      PyVal.asNum, List.filterMap_cons, List.filterMap_nil]
    norm_num
  · rfl

/-- Claim C4 (corrected): the data-quality raise on infinities belongs to
`HybridAnomalyDetector.fit_ngafid` (via `validate_data`), not to
`NGAFIDAnomalyDetector.fit`; `fit_ngafid` raises the infinity error on
NaN-free data containing an infinity, and completes without error once
every value is a finite number within the `1e6` bound (the data then passes
through the cleaning steps unchanged). -/
theorem fit_ngafid_validation_spec (cols : DataCols) :
    ((∀ c ∈ cols, ∀ v ∈ c, v ≠ PyVal.nan) →
      (∃ c ∈ cols, ∃ v ∈ c, v.isInf = true) →
      fit_ngafid cols =
        Except.error "Data contains infinity values. Please preprocess the dataset.") ∧
    ((∀ c ∈ cols, ∀ v ∈ c, ∃ q, v = PyVal.num q ∧ q ≤ 1000000) →
      fit_ngafid cols = Except.ok cols) := by
  constructor
  · intro hnan hinf
    have h1 : (cols.any fun c => c.any (· = PyVal.nan)) = false := by
      rw [List.any_eq_false]
      intro c hc
      rw [Bool.not_eq_true, List.any_eq_false]
      intro v hv
      simp [hnan c hc v hv]
    have h2 : (cols.any fun c => c.any PyVal.isInf) = true := by
      rw [List.any_eq_true]
      obtain ⟨c, hc, v, hv, hvinf⟩ := hinf
      exact ⟨c, hc, List.any_eq_true.mpr ⟨v, hv, hvinf⟩⟩
    simp [fit_ngafid, validate_data, h1, h2, Bind.bind, Except.bind]
  · intro hnum
    have h1 : (cols.any fun c => c.any (· = PyVal.nan)) = false := by
      rw [List.any_eq_false]
      intro c hc
      rw [Bool.not_eq_true, List.any_eq_false]
      intro v hv
      obtain ⟨q, rfl, _⟩ := hnum c hc v hv
      simp
    have h2 : (cols.any fun c => c.any PyVal.isInf) = false := by
      rw [List.any_eq_false]
      intro c hc
      rw [Bool.not_eq_true, List.any_eq_false]
      intro v hv
      obtain ⟨q, rfl, _⟩ := hnum c hc v hv
      simp [PyVal.isInf]
    have h3 : (cols.any fun c => c.any PyVal.gt1e6) = false := by
      rw [List.any_eq_false]
      intro c hc
      rw [Bool.not_eq_true, List.any_eq_false]
      intro v hv
      obtain ⟨q, rfl, hq⟩ := hnum c hc v hv
      simp [PyVal.gt1e6, not_lt.mpr hq]
    have hclean : (cols.map fun c => fillnaMedian (replaceInfWithNaN c)) = cols := by
      have hstep : ∀ c ∈ cols, fillnaMedian (replaceInfWithNaN c) = c := by
        intro c hc
        have hrep : replaceInfWithNaN c = c := by
          unfold replaceInfWithNaN
          conv_rhs => rw [← List.map_id c]
          apply List.map_congr_left
          intro v hv
          obtain ⟨q, rfl, _⟩ := hnum c hc v hv
          rfl
        rw [hrep]
        unfold fillnaMedian
        conv_rhs => rw [← List.map_id c]
        apply List.map_congr_left
        intro v hv
        obtain ⟨q, rfl, _⟩ := hnum c hc v hv
        rfl
      calc (cols.map fun c => fillnaMedian (replaceInfWithNaN c))
          = cols.map id := List.map_congr_left hstep
        _ = cols := List.map_id cols
    simp [fit_ngafid, validate_data, h1, h2, h3, NGAFID_fit, hclean, Bind.bind, Except.bind]

/-- Witness for C4: `fit_ngafid` raises the infinity error on a column with
an infinity, and succeeds unchanged on finite in-range data. -/
theorem fit_ngafid_validation_witness :
    fit_ngafid [[PyVal.num 1, PyVal.inf, PyVal.num 3]] =
      Except.error "Data contains infinity values. Please preprocess the dataset." ∧
    fit_ngafid [[PyVal.num 1, PyVal.num 3]] = Except.ok [[PyVal.num 1, PyVal.num 3]] := by
  constructor
  · refine (fit_ngafid_validation_spec _).1 ?_ ?_
    · intro c hc v hv
      simp only [List.mem_cons, List.not_mem_nil, or_false] at hc
      subst hc
      simp only [List.mem_cons, List.not_mem_nil, or_false] at hv
      rcases hv with rfl | rfl | rfl <;> simp
    · exact ⟨[PyVal.num 1, PyVal.inf, PyVal.num 3], by simp, PyVal.inf, by simp, rfl⟩
  · refine (fit_ngafid_validation_spec _).2 ?_
    intro c hc v hv
    simp only [List.mem_cons, List.not_mem_nil, or_false] at hc
    subst hc
    simp only [List.mem_cons, List.not_mem_nil, or_false] at hv
    rcases hv with rfl | rfl
    · exact ⟨1, rfl, by norm_num⟩
    · exact ⟨3, rfl, by norm_num⟩

/-- The disjunction of the three checks of `validate_data`. -/
def validation_fails (cols : DataCols) : Bool :=
  (cols.any fun c => c.any (· = PyVal.nan)) ||
  (cols.any fun c => c.any PyVal.isInf) ||
  (cols.any fun c => c.any PyVal.gt1e6)

/-- Claim C5 counterexample: the finite value `-2000000` has magnitude
beyond `1e6`, yet `fit_adapt` raises no data-quality error — validation's
large-value check is one-sided — and the scaler IS fitted (modified). -/
theorem fit_adapt_negative_large_counterexample :
    fit_adapt (fun (w : ℕ) _ => w + 1) ⟨none, 0⟩ [[PyVal.num (-2000000)]] =
      (⟨some ([(-2000000 : ℚ)], [(0 : ℚ)]), 1⟩, none) ∧
    (-2000000 : ℚ) < -1000000 := by
  constructor
  · simp +decide [fit_adapt, validate_data, scaler_fit, listMean, listVarPop, PyVal.asNum,
      PyVal.gt1e6, PyVal.isInf, List.filterMap_cons, List.filterMap_nil]
  · norm_num

/-- Claim C5 (corrected): `fit_adapt` raises a data-quality error — before
any scaling or training step, leaving scaler and weights unmodified —
exactly on the checks `validate_data` makes: NaN, ±infinity, or a value
strictly GREATER than `1e6`; a large-magnitude negative finite value is not
caught (see the counterexample). -/
theorem fit_adapt_validation_spec (W : Type) (train : W → DataCols → W)
    (st : AdaptState W) (cols : DataCols) (h : validation_fails cols = true) :
    (fit_adapt train st cols).1 = st ∧ (fit_adapt train st cols).2.isSome = true := by
  unfold fit_adapt validate_data
  split_ifs with h1 h2 h3
  · exact ⟨rfl, rfl⟩
  · exact ⟨rfl, rfl⟩
  · exact ⟨rfl, rfl⟩
  · exfalso
    simp only [validation_fails, Bool.or_eq_true] at h
    rcases h with (hh | hh) | hh
    exacts [h1 hh, h2 hh, h3 hh]

/-- Witness for C5: a NaN cell fails validation, leaving the state as it
was and signalling an error. -/
theorem fit_adapt_validation_witness :
    (fit_adapt (fun (w : ℕ) _ => w) ⟨none, 0⟩ [[PyVal.nan]]).1 = ⟨none, 0⟩ ∧
    (fit_adapt (fun (w : ℕ) _ => w) ⟨none, 0⟩ [[PyVal.nan]]).2.isSome = true :=
  fit_adapt_validation_spec ℕ (fun w _ => w) ⟨none, 0⟩ [[PyVal.nan]] rfl

/-- Claim C10 (confirmed): for any method other than `"f1"`, `"mcc"` or
`"balanced"`, no branch of the scan body assigns the metric, so evaluating
the very first scanned threshold raises an uninitialized-variable error —
`find_optimal_threshold` never returns a threshold and never falls back to
the default `0.5`. -/
theorem find_optimal_threshold_unknown_method_spec
    (mccF balF : List Bool → List Bool → ℚ) (method : String)
    (yTrue : List Bool) (scores : List ℚ)
    (h1 : method ≠ "f1") (h2 : method ≠ "mcc") (h3 : method ≠ "balanced")
    (h4 : yTrue ≠ []) (h5 : scores ≠ []) :
    find_optimal_threshold mccF balF method yTrue scores =
      Except.error "UnboundLocalError: local variable metric referenced before assignment" := by
  have hm : ∀ yp, metric_branch mccF balF method yTrue yp = none := by
    intro yp
    simp [metric_branch, h1, h2, h3]
  have hlen : linspace100.length = 100 := by
    simp only [linspace100, List.length_map, List.length_range]
  obtain ⟨t, ts, hts⟩ : ∃ t ts, linspace100 = t :: ts := by
    cases hcase : linspace100 with
    | nil => rw [hcase] at hlen; simp at hlen
    | cons t ts => exact ⟨t, ts, rfl⟩
  unfold find_optimal_threshold
  rw [hts]
  simp [threshold_scan, hm, Except.map]

/-- Witness for C10 at the unrecognized method string `"percentile"`. -/
theorem find_optimal_threshold_unknown_method_witness :
    find_optimal_threshold (fun _ _ => 0) (fun _ _ => 0) "percentile" [false] [(0 : ℚ)] =
      Except.error "UnboundLocalError: local variable metric referenced before assignment" :=
  find_optimal_threshold_unknown_method_spec (fun _ _ => 0) (fun _ _ => 0) "percentile"
    [false] [(0 : ℚ)] (by decide) (by decide) (by decide) (by simp) (by simp)

/-! ### Helper lemmas about the numpy fold-based max/min -/

theorem foldl_max_le_init (l : List ℚ) (b : ℚ) : b ≤ l.foldl max b := by
  induction l generalizing b with
  | nil => exact le_refl b
  | cons a t ih => exact le_trans (le_max_left b a) (ih (max b a))

theorem le_foldl_max (l : List ℚ) (b x : ℚ) (hx : x ∈ l) : x ≤ l.foldl max b := by
  induction l generalizing b with
  | nil => cases hx
  | cons a t ih =>
    rcases List.mem_cons.mp hx with rfl | h
    · exact le_trans (le_max_right b x) (foldl_max_le_init t (max b x))
    · exact ih (max b a) h

theorem foldl_max_mem (l : List ℚ) (b : ℚ) : l.foldl max b ∈ b :: l := by
  induction l generalizing b with
  | nil => simp
  | cons a t ih =>
    simp only [List.foldl_cons]
    rcases List.mem_cons.mp (ih (max b a)) with h1 | h1
    · rw [h1]
      rcases max_choice b a with hm | hm <;> rw [hm] <;> simp
    · exact List.mem_cons_of_mem b (List.mem_cons_of_mem a h1)

theorem init_le_foldl_min (l : List ℚ) (b : ℚ) : l.foldl min b ≤ b := by
  induction l generalizing b with
  | nil => exact le_refl b
  | cons a t ih => exact le_trans (ih (min b a)) (min_le_left b a)

theorem foldl_min_le (l : List ℚ) (b x : ℚ) (hx : x ∈ l) : l.foldl min b ≤ x := by
  induction l generalizing b with
  | nil => cases hx
  | cons a t ih =>
    rcases List.mem_cons.mp hx with rfl | h
    · exact le_trans (init_le_foldl_min t (min b x)) (min_le_right b x)
    · exact ih (min b a) h

theorem foldl_min_mem (l : List ℚ) (b : ℚ) : l.foldl min b ∈ b :: l := by
  induction l generalizing b with
  | nil => simp
  | cons a t ih =>
    simp only [List.foldl_cons]
    rcases List.mem_cons.mp (ih (min b a)) with h1 | h1
    · rw [h1]
      rcases min_choice b a with hm | hm <;> rw [hm] <;> simp
    · exact List.mem_cons_of_mem b (List.mem_cons_of_mem a h1)

theorem np_min_le (xs : List ℚ) (x : ℚ) (hx : x ∈ xs) : np_min xs ≤ x := by
  cases xs with
  | nil => cases hx
  | cons h t =>
    rcases List.mem_cons.mp hx with rfl | hmem
    · exact init_le_foldl_min t x
    · exact foldl_min_le t h x hmem

theorem le_np_max (xs : List ℚ) (x : ℚ) (hx : x ∈ xs) : x ≤ np_max xs := by
  cases xs with
  | nil => cases hx
  | cons h t =>
    rcases List.mem_cons.mp hx with rfl | hmem
    · exact foldl_max_le_init t x
    · exact le_foldl_max t h x hmem

theorem np_max_mem (xs : List ℚ) (h : xs ≠ []) : np_max xs ∈ xs := by
  cases xs with
  | nil => exact absurd rfl h
  | cons a t => exact foldl_max_mem t a

theorem np_min_mem (xs : List ℚ) (h : xs ≠ []) : np_min xs ∈ xs := by
  cases xs with
  | nil => exact absurd rfl h
  | cons a t => exact foldl_min_mem t a

theorem foldl_max_map (f : ℚ → ℚ) (hf : ∀ a b, f (max a b) = max (f a) (f b))
    (l : List ℚ) (b : ℚ) : (l.map f).foldl max (f b) = f (l.foldl max b) := by
  induction l generalizing b with
  | nil => rfl
  | cons a t ih =>
    simp only [List.map_cons, List.foldl_cons, ← hf]
    exact ih (max b a)

theorem foldl_min_map (f : ℚ → ℚ) (hf : ∀ a b, f (min a b) = min (f a) (f b))
    (l : List ℚ) (b : ℚ) : (l.map f).foldl min (f b) = f (l.foldl min b) := by
  induction l generalizing b with
  | nil => rfl
  | cons a t ih =>
    simp only [List.map_cons, List.foldl_cons, ← hf]
    exact ih (min b a)

theorem np_max_map (f : ℚ → ℚ) (hf : ∀ a b, f (max a b) = max (f a) (f b))
    (xs : List ℚ) (h : xs ≠ []) : np_max (xs.map f) = f (np_max xs) := by
  cases xs with
  | nil => exact absurd rfl h
  | cons a t => exact foldl_max_map f hf t a

theorem np_min_map (f : ℚ → ℚ) (hf : ∀ a b, f (min a b) = min (f a) (f b))
    (xs : List ℚ) (h : xs ≠ []) : np_min (xs.map f) = f (np_min xs) := by
  cases xs with
  | nil => exact absurd rfl h
  | cons a t => exact foldl_min_map f hf t a

/-- The non-constant branch of `normalize_scores`, in full: exact formula,
endpoints, and range. -/
theorem normalize_scores_nonconst (ys : List ℚ) (hne : ys ≠ [])
    (h : np_max ys ≠ np_min ys) :
    normalize_scores ys = ys.map (fun x => (x - np_min ys) / (np_max ys - np_min ys)) ∧
    np_min (normalize_scores ys) = 0 ∧
    np_max (normalize_scores ys) = 1 ∧
    ∀ y ∈ normalize_scores ys, 0 ≤ y ∧ y ≤ 1 := by
  have hminmax : np_min ys ≤ np_max ys := np_min_le ys (np_max ys) (np_max_mem ys hne)
  have hlt : np_min ys < np_max ys := lt_of_le_of_ne hminmax (Ne.symm h)
  have hd : 0 < np_max ys - np_min ys := sub_pos.mpr hlt
  have hf_max : ∀ a b : ℚ,
      (max a b - np_min ys) / (np_max ys - np_min ys) =
        max ((a - np_min ys) / (np_max ys - np_min ys))
          ((b - np_min ys) / (np_max ys - np_min ys)) := by
    intro a b
    rw [max_div_div_right hd.le, max_sub_sub_right]
  have hf_min : ∀ a b : ℚ,
      (min a b - np_min ys) / (np_max ys - np_min ys) =
        min ((a - np_min ys) / (np_max ys - np_min ys))
          ((b - np_min ys) / (np_max ys - np_min ys)) := by
    intro a b
    rw [min_div_div_right hd.le, min_sub_sub_right]
  have heq : normalize_scores ys =
      ys.map (fun x => (x - np_min ys) / (np_max ys - np_min ys)) := by
    rw [normalize_scores, if_neg h]
  refine ⟨heq, ?_, ?_, ?_⟩
  · rw [heq, np_min_map _ hf_min ys hne, sub_self, zero_div]
  · rw [heq, np_max_map _ hf_max ys hne, div_self (ne_of_gt hd)]
  · intro y hy
    rw [heq] at hy
    obtain ⟨x, hx, rfl⟩ := List.mem_map.mp hy
    constructor
    · exact div_nonneg (sub_nonneg.mpr (np_min_le ys x hx)) hd.le
    · rw [div_le_one hd]
      exact sub_le_sub_right (le_np_max ys x hx) _

/-- Claim C8 (confirmed): on a non-empty score list, `normalize_scores`
returns the all-zero array when all scores are equal; otherwise it applies
`(x - min) / (max - min)` elementwise, sending the minimum to 0 and the
maximum to 1 with every output in `[0, 1]`; and it is idempotent. -/
theorem normalize_scores_spec (xs : List ℚ) (hne : xs ≠ []) :
    (np_max xs = np_min xs → normalize_scores xs = List.replicate xs.length 0) ∧
    (np_max xs ≠ np_min xs →
      normalize_scores xs = xs.map (fun x => (x - np_min xs) / (np_max xs - np_min xs)) ∧
      np_min (normalize_scores xs) = 0 ∧
      np_max (normalize_scores xs) = 1 ∧
      ∀ y ∈ normalize_scores xs, 0 ≤ y ∧ y ≤ 1) ∧
    normalize_scores (normalize_scores xs) = normalize_scores xs := by
  refine ⟨fun h => by rw [normalize_scores, if_pos h], fun h => normalize_scores_nonconst xs hne h, ?_⟩
  by_cases h : np_max xs = np_min xs
  · have h1 : normalize_scores xs = List.replicate xs.length 0 := by
      rw [normalize_scores, if_pos h]
    have hn : xs.length ≠ 0 := fun hl => hne (List.length_eq_zero.mp hl)
    have hrep : ∀ y ∈ List.replicate xs.length (0 : ℚ), y = 0 := fun y hy =>
      List.eq_of_mem_replicate hy
    have hrn : List.replicate xs.length (0 : ℚ) ≠ [] := by
      intro hcon
      have hlen := congrArg List.length hcon
      simp only [List.length_replicate, List.length_nil] at hlen
      exact hn hlen
    have hmax : np_max (List.replicate xs.length (0 : ℚ)) = 0 :=
      hrep _ (np_max_mem _ hrn)
    have hmin : np_min (List.replicate xs.length (0 : ℚ)) = 0 :=
      hrep _ (np_min_mem _ hrn)
    rw [h1, normalize_scores, if_pos (by rw [hmax, hmin]), List.length_replicate]
  · obtain ⟨heq, hmin, hmax, _⟩ := normalize_scores_nonconst xs hne h
    have hne2 : normalize_scores xs ≠ [] := by
      rw [heq]
      intro hmap
      exact hne (List.map_eq_nil_iff.mp hmap)
    have h2 : np_max (normalize_scores xs) ≠ np_min (normalize_scores xs) := by
      rw [hmax, hmin]
      norm_num
    obtain ⟨heq2, _, _, _⟩ := normalize_scores_nonconst (normalize_scores xs) hne2 h2
    rw [heq2, hmax, hmin]
    simp

/-- Witness for C8 at the concrete list `[1, 3]`. -/
theorem normalize_scores_spec_witness :
    normalize_scores [1, 3] =
      [1, 3].map (fun x => (x - np_min [1, 3]) / (np_max [1, 3] - np_min [1, 3])) ∧
    np_min (normalize_scores [1, 3]) = 0 ∧
    np_max (normalize_scores [1, 3]) = 1 ∧
    normalize_scores (normalize_scores [1, 3]) = normalize_scores [1, 3] := by
  have h := normalize_scores_spec [1, 3] (by simp)
  have h2 := h.2.1 (by norm_num [np_max, np_min])
  exact ⟨h2.1, h2.2.1, h2.2.2.1, h.2.2⟩

/-! ### Helper lemmas for the dynamic threshold -/

theorem sampleVar_nonneg (xs : List ℚ) (v : ℚ) (h : sampleVar xs = some v) : 0 ≤ v := by
  rw [sampleVar] at h
  by_cases hlen : xs.length ≤ 1
  · rw [if_pos hlen] at h
    cases h
  · rw [if_neg hlen] at h
    obtain rfl := (Option.some.inj h).symm
    have hsum : 0 ≤ (xs.map fun x => (x - listMean xs) ^ 2).sum := by
      apply List.sum_nonneg
      intro a ha
      obtain ⟨x, hx, rfl⟩ := List.mem_map.mp ha
      positivity
    have h2 : 2 ≤ xs.length := by omega
    have hden : (0 : ℚ) < (xs.length : ℚ) - 1 := by
      have h2' : (2 : ℚ) ≤ (xs.length : ℚ) := by exact_mod_cast h2
      linarith
    exact div_nonneg hsum hden.le

/-- The rational decision procedure of `exceedsThr` agrees with the
real-number comparison `e > m + sqrt v` it stands for. -/
theorem exceedsThr_iff_real (e m v : ℚ) (hv : 0 ≤ v) :
    exceedsThr e (some (m, v)) = true ↔ (m : ℝ) + Real.sqrt (v : ℝ) < (e : ℝ) := by
  unfold exceedsThr
  rw [Bool.and_eq_true, decide_eq_true_eq, decide_eq_true_eq]
  constructor
  · rintro ⟨h1, h2⟩
    have h1' : (0 : ℝ) < (e : ℝ) - (m : ℝ) := by
      have := h1
      push_cast at this ⊢
      exact_mod_cast this
    have h2' : (v : ℝ) < ((e : ℝ) - (m : ℝ)) ^ 2 := by
      have := h2
      push_cast at this ⊢
      exact_mod_cast this
    have h3 : Real.sqrt (v : ℝ) < (e : ℝ) - (m : ℝ) := (Real.sqrt_lt' h1').mpr h2'
    linarith
  · intro h
    have hs : 0 ≤ Real.sqrt (v : ℝ) := Real.sqrt_nonneg _
    have h1' : (0 : ℝ) < (e : ℝ) - (m : ℝ) := by linarith
    have h3 : Real.sqrt (v : ℝ) < (e : ℝ) - (m : ℝ) := by linarith
    have h2' : (v : ℝ) < ((e : ℝ) - (m : ℝ)) ^ 2 := (Real.sqrt_lt' h1').mp h3
    constructor
    · exact_mod_cast h1'
    · have : ((v : ℚ) : ℝ) < (((e - m) ^ 2 : ℚ) : ℝ) := by push_cast; push_cast at h2'; linarith
      exact_mod_cast this

theorem firstSome_map {α β : Type} (f : α → β) (l : List (Option α)) :
    firstSome (l.map (Option.map f)) = (firstSome l).map f := by
  induction l with
  | nil => rfl
  | cons x t ih =>
    cases x with
    | none =>
      simp only [List.map_cons, Option.map_none']
      rw [show firstSome (none :: t.map (Option.map f)) = firstSome (t.map (Option.map f)) from rfl,
        show firstSome (none :: t) = firstSome t from rfl]
      exact ih
    | some a => rfl

theorem bfill_map {α β : Type} (f : α → β) (l : List (Option α)) :
    bfill (l.map (Option.map f)) = (bfill l).map (Option.map f) := by
  induction l with
  | nil => rfl
  | cons x t ih =>
    cases x with
    | none =>
      simp only [List.map_cons, Option.map_none', bfill, ih, firstSome_map]
    | some a =>
      simp only [List.map_cons, Option.map_some', bfill, ih]

theorem firstSome_map_const_none {α β : Type} (l : List (Option α)) :
    firstSome (l.map fun _ => (none : Option β)) = none := by
  induction l with
  | nil => rfl
  | cons x t ih =>
    rw [List.map_cons,
      show firstSome (none :: t.map fun _ => (none : Option β)) =
        firstSome (t.map fun _ => (none : Option β)) from rfl]
    exact ih

theorem bfill_map_const_none {α β : Type} (l : List (Option α)) :
    bfill (l.map fun _ => (none : Option β)) = (bfill l).map fun _ => none := by
  induction l with
  | nil => rfl
  | cons x t ih =>
    cases x with
    | none =>
      simp only [List.map_cons, bfill, ih, firstSome_map_const_none]
    | some a =>
      simp only [List.map_cons, bfill, ih, firstSome_map_const_none]

theorem pairWith_none_fun : pairWith none = fun _ => (none : Option (ℚ × ℚ)) := by
  funext m
  cases m <;> rfl

theorem pairWith_some_fun (v0 : ℚ) :
    pairWith (some v0) = Option.map fun m => (m, v0) := by
  funext m
  cases m <;> rfl

/-- The code's back-filled threshold (bfill AFTER adding the scalar std)
equals the back-filled rolling mean paired with the same scalar std. -/
theorem dynamic_threshold_eq_amended (w : ℕ) (xs : List ℚ) :
    bfill (dynamic_threshold w xs) =
      (bfill (rolling_mean w xs)).map (pairWith (series_std_var (rolling_mean w xs))) := by
  rw [dynamic_threshold]
  cases hv : series_std_var (rolling_mean w xs) with
  | none => rw [pairWith_none_fun, bfill_map_const_none]
  | some v0 => rw [pairWith_some_fun, bfill_map]

theorem detect_eq_amended (w : ℕ) (errors : List ℚ) :
    detect_adapt_anomalies w errors = amended_flags w errors := by
  unfold detect_adapt_anomalies amended_flags
  rw [dynamic_threshold_eq_amended, List.zip_map_right, List.map_map]
  rfl

/-- Claim C1 (corrected): the dynamic threshold is NOT the rolling mean
plus a rolling standard deviation of the error history; the code adds
`rolling_mean.std()` — the single scalar sample standard deviation of the
rolling-mean series itself — to the back-filled rolling mean.  A window is
flagged exactly when its error exceeds (in real arithmetic, via
`exceedsThr`) that back-filled rolling mean plus this one scalar. -/
theorem detect_adapt_anomalies_amended (w : ℕ) (errors : List ℚ) :
    detect_adapt_anomalies w errors = amended_flags w errors ∧
    ∀ e m v : ℚ, 0 ≤ v →
      (exceedsThr e (some (m, v)) = true ↔ (m : ℝ) + Real.sqrt (v : ℝ) < (e : ℝ)) :=
  ⟨detect_eq_amended w errors, fun e m v hv => exceedsThr_iff_real e m v hv⟩

/-- Witness for C1 on the error history `[0, 2, 0, 2]` with rolling window
2, with the square-root comparison instantiated at the code's threshold
entry (mean 1, variance 0) of index 1. -/
theorem detect_adapt_anomalies_amended_witness :
    detect_adapt_anomalies 2 [0, 2, 0, 2] = amended_flags 2 [0, 2, 0, 2] ∧
    (exceedsThr 2 (some (1, 0)) = true ↔
      ((1 : ℚ) : ℝ) + Real.sqrt ((0 : ℚ) : ℝ) < ((2 : ℚ) : ℝ)) :=
  ⟨(detect_adapt_anomalies_amended 2 [0, 2, 0, 2]).1,
   (detect_adapt_anomalies_amended 2 [0, 2, 0, 2]).2 2 1 0 le_rfl⟩

/-- Claim C1 counterexample: on the error history `[0, 2, 0, 2]` with
rolling window 2 the code flags windows 1 and 3 (its scalar `std` of the
constant rolling-mean series `[1, 1, 1]` is 0), while the claim's
rolling-standard-deviation threshold (`1 + sqrt 2` everywhere after
back-fill) flags nothing: the flags differ at index 1. -/
theorem detect_adapt_rolling_std_counterexample :
    detect_adapt_anomalies 2 [0, 2, 0, 2] = [false, true, false, true] ∧
    claim_flags 2 [0, 2, 0, 2] = [false, false, false, false] := by
  constructor
  · simp +decide [detect_adapt_anomalies, dynamic_threshold, rolling_mean, rollingWindows,
      series_std_var, sampleVar, listMean, bfill, firstSome, exceedsThr, pairWith,
      List.filterMap_cons, List.filterMap_nil, List.range_succ]
    norm_num
  · simp +decide [claim_flags, claim_threshold, rolling_mean, rolling_var, rollingWindows,
      sampleVar, listMean, bfill, firstSome, exceedsThr,
      List.filterMap_cons, List.filterMap_nil, List.range_succ]
    norm_num

/-! ### Helper lemmas for the threshold scan -/

/-- Pure version of the scan loop, valid once every scanned threshold
assigns a metric. -/
def scan_pure (f : ℚ → ℚ) : List ℚ → ℚ × ℚ → ℚ × ℚ
  | [], b => b
  | t :: ts, b => scan_pure f ts (if b.1 < f t then (f t, t) else b)

theorem threshold_scan_known (metricAt : ℚ → Option ℚ) (f : ℚ → ℚ)
    (hm : ∀ t, metricAt t = some (f t)) (l : List ℚ) (b : ℚ × ℚ) :
    threshold_scan metricAt l b = Except.ok (scan_pure f l b) := by
  induction l generalizing b with
  | nil => rfl
  | cons t ts ih =>
    rw [threshold_scan, hm t, scan_pure]
    exact ih _

theorem scan_pure_fst_le (f : ℚ → ℚ) (l : List ℚ) (b : ℚ × ℚ) :
    b.1 ≤ (scan_pure f l b).1 := by
  induction l generalizing b with
  | nil => exact le_refl _
  | cons t ts ih =>
    rw [scan_pure]
    refine le_trans ?_ (ih (if b.1 < f t then (f t, t) else b))
    split_ifs with h
    · exact h.le
    · exact le_refl _

theorem scan_pure_ge_mem (f : ℚ → ℚ) (l : List ℚ) (b : ℚ × ℚ) (t : ℚ) (ht : t ∈ l) :
    f t ≤ (scan_pure f l b).1 := by
  induction l generalizing b with
  | nil => cases ht
  | cons a ts ih =>
    rw [scan_pure]
    rcases List.mem_cons.mp ht with rfl | h
    · refine le_trans ?_ (scan_pure_fst_le f ts _)
      split_ifs with h
      · exact le_refl _
      · exact not_lt.mp h
    · exact ih _ h

theorem scan_pure_characterize (f : ℚ → ℚ) (l : List ℚ) (b : ℚ × ℚ) :
    scan_pure f l b = b ∨
      ((scan_pure f l b).1 = f (scan_pure f l b).2 ∧ (scan_pure f l b).2 ∈ l) := by
  induction l generalizing b with
  | nil => exact Or.inl rfl
  | cons a ts ih =>
    rw [scan_pure]
    rcases ih (if b.1 < f a then (f a, a) else b) with h | h
    · rw [h]
      split_ifs with hc
      · exact Or.inr ⟨rfl, by simp⟩
      · exact Or.inl rfl
    · exact Or.inr ⟨h.1, List.mem_cons_of_mem a h.2⟩

theorem f1_score_le_one (y p : List Bool) : f1_score y p ≤ 1 := by
  rw [f1_score]
  split_ifs with h
  · exact zero_le_one
  · have hpos : (0 : ℚ) < ((2 * tp_count y p + fp_count y p + fn_count y p : ℕ) : ℚ) := by
      exact_mod_cast Nat.pos_of_ne_zero h
    rw [div_le_one hpos]
    push_cast
    have h1 : (0 : ℚ) ≤ (fp_count y p : ℚ) := by positivity
    have h2 : (0 : ℚ) ≤ (fn_count y p : ℚ) := by positivity
    linarith

theorem zip_self_counts (y : List Bool) :
    tp_count y y = y.countP (fun b => b) ∧ fp_count y y = 0 ∧ fn_count y y = 0 := by
  induction y with
  | nil => exact ⟨rfl, rfl, rfl⟩
  | cons a t ih =>
    unfold tp_count fp_count fn_count at ih ⊢
    simp only [List.zip_cons_cons, List.countP_cons, ih.1, ih.2.1, ih.2.2]
    cases a <;> simp

theorem f1_score_self (y : List Bool) (h : true ∈ y) : f1_score y y = 1 := by
  obtain ⟨htp, hfp, hfn⟩ := zip_self_counts y
  have hcount : 0 < y.countP (fun b => b) :=
    List.countP_pos.mpr ⟨true, h, rfl⟩
  rw [f1_score, htp, hfp, hfn]
  rw [if_neg (by omega)]
  have hne : ((2 * y.countP (fun b => b) + 0 + 0 : ℕ) : ℚ) ≠ 0 := by
    have : (0 : ℕ) < 2 * y.countP (fun b => b) + 0 + 0 := by omega
    exact_mod_cast Nat.pos_iff_ne_zero.mp this
  rw [div_eq_one_iff_eq hne]
  push_cast
  ring

theorem normalize_scores_length (xs : List ℚ) :
    (normalize_scores xs).length = xs.length := by
  rw [normalize_scores]
  split_ifs <;> simp

/-- A threshold separating the normalized scores turns the prediction into
the exact label vector. -/
theorem pred_eq_of_sep (y : List Bool) (s : List ℚ) (t : ℚ)
    (hlen : y.length = s.length)
    (hsep : ∀ p ∈ y.zip s, (p.1 = true → t < p.2) ∧ (p.1 = false → p.2 ≤ t)) :
    s.map (fun x => decide (t < x)) = y := by
  induction y generalizing s with
  | nil =>
    cases s with
    | nil => rfl
    | cons a l => simp at hlen
  | cons b yt ih =>
    cases s with
    | nil => simp at hlen
    | cons x st =>
      simp only [List.map_cons]
      have hhead := hsep (b, x) (by simp)
      have htail : ∀ p ∈ yt.zip st, (p.1 = true → t < p.2) ∧ (p.1 = false → p.2 ≤ t) :=
        fun p hp => hsep p (by simp [hp])
      rw [ih st (by simpa using hlen) htail]
      congr 1
      cases b with
      | true => exact decide_eq_true (hhead.1 rfl)
      | false => exact decide_eq_false (not_lt.mpr (hhead.2 rfl))

/-- The threshold `find_optimal_threshold` returns (defaulting to the
initial `0.5` in the error case, which the `"f1"` method never reaches). -/
def best_threshold (mccF balF : List Bool → List Bool → ℚ) (method : String)
    (yTrue : List Bool) (scores : List ℚ) : ℚ :=
  ((find_optimal_threshold mccF balF method yTrue scores).toOption).getD (1 / 2)

/-- Claim C3 (corrected): with the default `"f1"` method the search always
returns a threshold in `[0, 1]`; but perfect separability of the scores
alone does NOT guarantee F1 = 1 at the returned threshold (the 100-point
grid can miss a narrow separating gap — see the counterexample).  F1 = 1 is
guaranteed when some scanned grid point `k/99` itself separates the
normalized scores. -/
theorem find_optimal_threshold_f1_spec (mccF balF : List Bool → List Bool → ℚ)
    (yTrue : List Bool) (scores : List ℚ)
    (hlen : yTrue.length = scores.length) (hne : scores ≠ []) :
    find_optimal_threshold mccF balF "f1" yTrue scores =
      Except.ok (best_threshold mccF balF "f1" yTrue scores) ∧
    0 ≤ best_threshold mccF balF "f1" yTrue scores ∧
    best_threshold mccF balF "f1" yTrue scores ≤ 1 ∧
    (true ∈ yTrue →
      ∀ k : ℕ, k < 100 →
      (∀ p ∈ yTrue.zip (normalize_scores scores),
        (p.1 = true → (k : ℚ) / 99 < p.2) ∧ (p.1 = false → p.2 ≤ (k : ℚ) / 99)) →
      f1_score yTrue ((normalize_scores scores).map fun s =>
        decide (best_threshold mccF balF "f1" yTrue scores < s)) = 1) := by
  have hm : ∀ t : ℚ,
      metric_branch mccF balF "f1" yTrue
        ((normalize_scores scores).map fun s => decide (t < s)) =
      some (f1_score yTrue ((normalize_scores scores).map fun s => decide (t < s))) := by
    intro t
    rw [metric_branch, if_pos rfl]
  have hscan : find_optimal_threshold mccF balF "f1" yTrue scores =
      Except.ok ((scan_pure
        (fun t => f1_score yTrue ((normalize_scores scores).map fun s => decide (t < s)))
        linspace100 (0, 1 / 2)).2) := by
    rw [find_optimal_threshold,
      threshold_scan_known _
        (fun t => f1_score yTrue ((normalize_scores scores).map fun s => decide (t < s)))
        hm linspace100 (0, 1 / 2)]
    rfl
  have hbt : best_threshold mccF balF "f1" yTrue scores =
      (scan_pure
        (fun t => f1_score yTrue ((normalize_scores scores).map fun s => decide (t < s)))
        linspace100 (0, 1 / 2)).2 := by
    rw [best_threshold, hscan]
    rfl
  have hrange : ∀ t ∈ linspace100, 0 ≤ t ∧ t ≤ 1 := by
    intro t ht
    obtain ⟨k, hk, rfl⟩ := List.mem_map.mp ht
    have hk' : k ≤ 99 := by
      have := List.mem_range.mp hk
      omega
    constructor
    · exact div_nonneg (Nat.cast_nonneg k) (by norm_num)
    · rw [div_le_one (by norm_num : (0 : ℚ) < 99)]
      exact_mod_cast hk'
  have hsnd : 0 ≤ (scan_pure
        (fun t => f1_score yTrue ((normalize_scores scores).map fun s => decide (t < s)))
        linspace100 (0, 1 / 2)).2 ∧
      (scan_pure
        (fun t => f1_score yTrue ((normalize_scores scores).map fun s => decide (t < s)))
        linspace100 (0, 1 / 2)).2 ≤ 1 := by
    rcases scan_pure_characterize
        (fun t => f1_score yTrue ((normalize_scores scores).map fun s => decide (t < s)))
        linspace100 (0, 1 / 2) with h | h
    · rw [h]
      norm_num
    · exact hrange _ h.2
  refine ⟨by rw [hbt]; exact hscan, hsnd.1.trans_eq hbt.symm |>.trans_eq rfl, ?_, ?_⟩
  · rw [hbt]
    exact hsnd.2
  · intro hpos k hk hsep
    have hlen2 : yTrue.length = (normalize_scores scores).length :=
      hlen.trans (normalize_scores_length scores).symm
    have hpred : ((normalize_scores scores).map fun x => decide ((k : ℚ) / 99 < x)) = yTrue :=
      pred_eq_of_sep yTrue (normalize_scores scores) ((k : ℚ) / 99) hlen2 hsep
    have htstar : ((k : ℚ) / 99) ∈ linspace100 :=
      List.mem_map.mpr ⟨k, List.mem_range.mpr hk, rfl⟩
    have hf_tstar :
        f1_score yTrue ((normalize_scores scores).map fun s => decide ((k : ℚ) / 99 < s)) = 1 := by
      rw [hpred]
      exact f1_score_self yTrue hpos
    have hge : 1 ≤ (scan_pure
        (fun t => f1_score yTrue ((normalize_scores scores).map fun s => decide (t < s)))
        linspace100 (0, 1 / 2)).1 := by
      have h0 : f1_score yTrue
            ((normalize_scores scores).map fun s => decide ((k : ℚ) / 99 < s)) ≤
          (scan_pure
            (fun t => f1_score yTrue ((normalize_scores scores).map fun s => decide (t < s)))
            linspace100 (0, 1 / 2)).1 :=
        scan_pure_ge_mem
          (fun t => f1_score yTrue ((normalize_scores scores).map fun s => decide (t < s)))
          linspace100 (0, 1 / 2) ((k : ℚ) / 99) htstar
      rw [hf_tstar] at h0
      exact h0
    rcases scan_pure_characterize
        (fun t => f1_score yTrue ((normalize_scores scores).map fun s => decide (t < s)))
        linspace100 (0, 1 / 2) with hc | hc
    · exfalso
      rw [hc] at hge
      norm_num at hge
    · rw [hbt]
      refine le_antisymm (f1_score_le_one _ _) ?_
      calc (1 : ℚ) ≤ _ := hge
        _ = _ := hc.1

/-- Witness for C3 at `y = [false, true]`, `scores = [3, 7]` (normalized to
`[0, 1]`, separated by the scanned grid point `0/99`). -/
theorem find_optimal_threshold_f1_spec_witness :
    find_optimal_threshold (fun _ _ => 0) (fun _ _ => 0) "f1" [false, true] [3, 7] =
      Except.ok (best_threshold (fun _ _ => 0) (fun _ _ => 0) "f1" [false, true] [3, 7]) ∧
    0 ≤ best_threshold (fun _ _ => 0) (fun _ _ => 0) "f1" [false, true] [3, 7] ∧
    best_threshold (fun _ _ => 0) (fun _ _ => 0) "f1" [false, true] [3, 7] ≤ 1 ∧
    f1_score [false, true] ((normalize_scores [3, 7]).map fun s =>
      decide (best_threshold (fun _ _ => 0) (fun _ _ => 0) "f1" [false, true] [3, 7] < s)) = 1 := by
  have h := find_optimal_threshold_f1_spec (fun _ _ => 0) (fun _ _ => 0)
    [false, true] [3, 7] (by simp) (by simp)
  refine ⟨h.1, h.2.1, h.2.2.1, h.2.2.2 (by simp) 0 (by norm_num) ?_⟩
  have hns : normalize_scores [3, 7] = [0, 1] := by
    norm_num [normalize_scores, np_max, np_min]
  rw [hns]
  intro p hp
  simp only [List.zip_cons_cons, List.zip_nil_right, List.mem_cons,
    List.not_mem_nil, or_false] at hp
  rcases hp with rfl | rfl
  · constructor
    · intro hfalse
      simp at hfalse
    · intro _
      norm_num
  · constructor
    · intro _
      norm_num
    · intro htrue
      simp at htrue

set_option maxHeartbeats 8000000 in
set_option maxRecDepth 100000 in
/-- Claim C3 counterexample: `y = [0, 0, 1, 1]` with scores
`[0, 1/2, 101/200, 1]` is perfectly separable (every positive score is
strictly above every negative score, `1/2 < 101/200`), yet the separating
gap lies strictly between the grid points `49/99` and `50/99`, so no
scanned threshold attains F1 = 1: the search returns threshold `0`, whose
F1 is `4/5`, not `1`. -/
theorem find_optimal_threshold_grid_counterexample :
    find_optimal_threshold (fun _ _ => 0) (fun _ _ => 0) "f1"
      [false, false, true, true] [0, 1/2, 101/200, 1] = Except.ok 0 ∧
    f1_score [false, false, true, true]
      ((normalize_scores [0, 1/2, 101/200, 1]).map fun s => decide ((0 : ℚ) < s)) = 4/5 ∧
    (1 : ℚ)/2 < 101/200 := by
  have hns : normalize_scores [0, 1/2, 101/200, 1] = [0, 1/2, 101/200, 1] := by
    norm_num [normalize_scores, np_max, np_min]
  refine ⟨?_, ?_, by norm_num⟩
  · rw [find_optimal_threshold, hns]
    norm_num [threshold_scan, linspace100, metric_branch, f1_score,
      tp_count, fp_count, fn_count, List.range_succ, Except.map]
  · rw [hns]
    norm_num [f1_score, tp_count, fp_count, fn_count]
